import Mathlib

/-!
Verification development for the Homerseklet repository (src/app.py).

The program downloads a daily semicolon-separated weather table, resolves
its columns, cleanses the temperature cells and reduces the table to the
daily minimum and maximum readings.  The definitions below are a shallow
embedding of the pure core of `src/app.py`:

* `to_float` embeds the inner helper `to_float` of `parse_and_find_extremes`
  (strip, empty → absent, sentinel `"-999"` → absent, decimal comma →
  decimal point, numeric parse with coercion of failures to absent);
* `parse_and_find_extremes` embeds the function of the same name: the
  column-count guards, the derived `station_number` / `station_name` /
  `station_full` columns appended to the frame, the positional selection
  `df.columns[10]` / `df.columns[12]` of the temperature columns, the
  name-based latitude/longitude candidate search, the in-frame
  assignments `df["lat"]` / `df["lon"]` (lines 66-71) and `df["min_val"]`
  (line 80) that overwrite identically-named columns before the
  temperature series are read at lines 80-81 (`minValSeries` /
  `maxValSeries` below), and the `idxmin` / `idxmax` reductions
  (`argmin` / `argmax` below, first occurrence wins);
* `extract_csv_from_zipbytes` embeds the archive-member selection logic of
  the function of the same name (the member bytes themselves are I/O and
  are represented by the chosen member name).

Numeric cells are modelled as exact rationals: the decimal strings the
parser accepts denote rationals exactly, and the reductions only compare
values.  Pandas `NaN` (missing cell, unparseable cell) is modelled as
`Option.none`, which matches the pipeline because `idxmin`/`idxmax` skip
`NaN` via `dropna`.  A cell missing from a short row is pandas `NaN`,
which `astype(str)` renders as the text `"nan"`; `cell` uses that default.
Exotic float spellings (`"inf"`, exponents, underscores) are outside the
modelled fragment of `pd.to_numeric`, and the general theorems carry the
hypotheses recorded in `goodHeader` (at least 13 columns, distinct trimmed
header names, header names distinct from the three derived column names)
under which by-name and positional column access agree, exactly as in
pandas.  When the program re-reads a column it has itself assigned
numerically (a temperature column literally named `lat`, `lon` or
`min_val`), the round trip of `astype(str)` followed by `to_float` is
modelled as the identity on present/absent values, which matches the
float behaviour: `NaN`/`None` render as unparseable text and stay
absent, and a finite value renders with a decimal point — never the
bare sentinel text — and re-parses to itself.
-/

namespace Homerseklet

/-- Characters stripped by Python `str.strip` (ASCII whitespace). -/
def isSpaceChar (c : Char) : Bool :=
  c = ' ' || c = '\t' || c = '\n' || c = '\r' || c = '\x0b' || c = '\x0c'

/-- Drop leading and trailing whitespace from a character list. -/
def stripChars (cs : List Char) : List Char :=
  ((cs.dropWhile isSpaceChar).reverse.dropWhile isSpaceChar).reverse

/-- Model of Python `str.strip` / pandas `.str.strip()`. -/
def pyStrip (s : String) : String := String.mk (stripChars s.toList)

/-- Replace a decimal comma by a decimal point, leave all else unchanged. -/
def commaToDot (c : Char) : Char := if c = ',' then '.' else c

/-- Model of `.str.replace(",", ".", regex=False)`. -/
def replaceComma (s : String) : String := String.mk (s.toList.map commaToDot)

/-- ASCII digit test. -/
def isDigitChar (c : Char) : Bool := '0' ≤ c && c ≤ '9'

/-- Value of a digit string. -/
def digitsToNat (cs : List Char) : Nat := cs.foldl (fun n c => 10 * n + (c.toNat - 48)) 0

/-- Unsigned decimal literal: digits with at most one point and at least one
digit in total (`"12"`, `"12."`, `".5"`, `"12.5"`), denoting an exact
rational. -/
def parseUnsignedDec (cs : List Char) : Option ℚ :=
  match cs.splitOn '.' with
  | [a] =>
    if !a.isEmpty && a.all isDigitChar then some (digitsToNat a : ℚ) else none
  | [a, b] =>
    if (!a.isEmpty || !b.isEmpty) && a.all isDigitChar && b.all isDigitChar then
      some ((digitsToNat a : ℚ) + (digitsToNat b : ℚ) / (10 : ℚ) ^ b.length)
    else none
  | _ => none

/-- Model of the string-to-number conversion of `pd.to_numeric` /
Python `float`: tolerate surrounding whitespace, optional sign, decimal
digits; anything else is a parse failure (`errors="coerce"` → absent). -/
def pyFloat (cs : List Char) : Option ℚ :=
  match stripChars cs with
  | '-' :: rest => (parseUnsignedDec rest).map (fun q => -q)
  | '+' :: rest => parseUnsignedDec rest
  | rest => parseUnsignedDec rest

/-- The sentinel text `"-999"`. -/
def sentinelChars : List Char := ['-', '9', '9', '9']

/-- Steps 2-5 of the cleansing applied to the stripped cell text: empty →
absent, exact sentinel `"-999"` → absent, decimal comma → decimal point,
then numeric parse with failures coerced to absent. -/
def to_floatCore (t : List Char) : Option ℚ :=
  if t = [] then none
  else if t = sentinelChars then none
  else pyFloat (t.map commaToDot)

/-- Model of the inner helper `to_float` (src/app.py lines 74-78): strip,
then `to_floatCore`. -/
def to_float (s : String) : Option ℚ := to_floatCore (stripChars s.toList)

/-- Coordinate parsing (src/app.py lines 67-68): comma → point, then
`pd.to_numeric(..., errors="coerce")`; no stripping and no sentinel
handling on this path. -/
def coordParse (s : String) : Option ℚ := pyFloat (s.toList.map commaToDot)

/-- A cell of a data row.  A cell missing from a short row is pandas `NaN`,
which `astype(str)` renders as the text `"nan"`. -/
def cell (r : List String) (i : Nat) : String := r.getD i "nan"

/-- Derived column `station_number` (src/app.py line 51): column B trimmed. -/
def station_number (r : List String) : String := pyStrip (cell r 1)

/-- Derived column `station_name` (src/app.py line 52): column C trimmed. -/
def station_name (r : List String) : String := pyStrip (cell r 2)

/-- Derived column `station_full` (src/app.py line 55). -/
def station_full (r : List String) : String :=
  station_name r ++ " (" ++ station_number r ++ ")"

/-- The header after `df.columns = [c.strip() for c in df.columns]`. -/
def strippedHeader (header : List String) : List String := header.map pyStrip

/-- Pandas column assignment `df[name] = ...`: appends a new column unless
one of that name already exists (in which case it is overwritten in place,
so the column list is unchanged). -/
def addCol (cols : List String) (name : String) : List String :=
  if name ∈ cols then cols else cols ++ [name]

/-- `df.columns` after the three derived columns have been assigned. -/
def augCols (header : List String) : List String :=
  addCol (addCol (addCol (strippedHeader header) "station_number") "station_name") "station_full"

/-- Index of the first occurrence of a name in a column list. -/
def idxOfName : List String → String → Option Nat
  | [], _ => none
  | c :: t, n => if c = n then some 0 else (idxOfName t n).map (· + 1)

/-- Pandas by-name column lookup `df[name]` at the stage after the three
derived station columns were assigned (src/app.py line 55) and before the
coordinate columns are (line 66): the three derived names denote the
derived value series (whether they were appended or overwrote an original
column), any other name denotes the original column of that (stripped)
name.  This is the frame state in which the coordinate candidates are
read at lines 67-68 (the right-hand side of line 67 runs before its own
assignment, and `"lat"` is never a longitude candidate, so line 68 also
reads this state).  The later `df["lat"]` / `df["lon"]` / `df["min_val"]`
assignments are layered on top of this lookup in `minValSeries` and
`maxValSeries` below. -/
def seriesByName (header : List String) (rows : List (List String)) (name : String) :
    List String :=
  if name = "station_number" then rows.map station_number
  else if name = "station_name" then rows.map station_name
  else if name = "station_full" then rows.map station_full
  else
    match idxOfName (strippedHeader header) name with
    | some i => rows.map (fun r => cell r i)
    | none => []

/-- `min_col = df.columns[10]` (src/app.py line 60). -/
def min_col (header : List String) : String := (augCols header).getD 10 ""

/-- `max_col = df.columns[12]` (src/app.py line 61). -/
def max_col (header : List String) : String := (augCols header).getD 12 ""

/-- Lower-case an ASCII letter, leave all else unchanged. -/
def lowerChar (c : Char) : Char :=
  if 'A' ≤ c && c ≤ 'Z' then Char.ofNat (c.toNat + 32) else c

/-- Model of Python `str.lower` (ASCII fragment, which covers every
recognised token). -/
def pyLower (s : String) : String := String.mk (s.toList.map lowerChar)

/-- Recognised latitude header spellings (src/app.py line 64). -/
def latTokens : List String := ["lat", "latitude"]

/-- Recognised longitude header spellings (src/app.py line 65). -/
def lonTokens : List String := ["lon", "longitude", "long"]

/-- `lat_candidates` (src/app.py line 64). -/
def lat_candidates (header : List String) : List String :=
  (augCols header).filter (fun c => pyLower c ∈ latTokens)

/-- `lon_candidates` (src/app.py line 65). -/
def lon_candidates (header : List String) : List String :=
  (augCols header).filter (fun c => pyLower c ∈ lonTokens)

/-- The parsed latitude series: populated only when both a latitude and a
longitude candidate column exist (src/app.py lines 66-71). -/
def latSeries (header : List String) (rows : List (List String)) : List (Option ℚ) :=
  match lat_candidates header, lon_candidates header with
  | c :: _, _ :: _ => (seriesByName header rows c).map coordParse
  | _, _ => rows.map (fun _ => none)

/-- The parsed longitude series, symmetric to `latSeries`. -/
def lonSeries (header : List String) (rows : List (List String)) : List (Option ℚ) :=
  match lat_candidates header, lon_candidates header with
  | _ :: _, c :: _ => (seriesByName header rows c).map coordParse
  | _, _ => rows.map (fun _ => none)

/-- The cleansed numeric series `df["min_val"] = to_float(df[min_col])`
of src/app.py line 80.  By line 80 the frame also holds the columns
assigned at lines 66-71: `df["lat"]` and `df["lon"]` are the parsed
coordinate series (or all-`None` when a candidate is missing), so when
`min_col` is literally `"lat"` or `"lon"` the read hits that overwritten
column.  On such a column `to_float` after `astype(str)` is the identity
at the present/absent level: `NaN` and `None` render as `"nan"` /
`"None"` and coerce back to absent, while a finite value renders with a
decimal point (never the bare sentinel text `"-999"`, so the sentinel
filter cannot fire) and re-parses to itself.  Any other name reads the
pre-coordinate frame (`seriesByName`) and is cleansed by `to_float`. -/
def minValSeries (header : List String) (rows : List (List String)) : List (Option ℚ) :=
  if min_col header = "lat" then latSeries header rows
  else if min_col header = "lon" then lonSeries header rows
  else (seriesByName header rows (min_col header)).map to_float

/-- The cleansed numeric series `df["max_val"] = to_float(df[max_col])`
of src/app.py line 81.  By line 81, line 80 has additionally assigned
`df["min_val"]`, so that name now denotes the freshly computed minimum
series (re-rendering and re-cleansing a numeric series is the identity,
as for the coordinate columns). -/
def maxValSeries (header : List String) (rows : List (List String)) : List (Option ℚ) :=
  if max_col header = "min_val" then minValSeries header rows
  else if max_col header = "lat" then latSeries header rows
  else if max_col header = "lon" then lonSeries header rows
  else (seriesByName header rows (max_col header)).map to_float

/-- First index (with its value) attaining the minimum among present
values; `none` when every value is absent.  Model of pandas
`Series.idxmin` after `dropna`: ties go to the earliest row. -/
def argmin : List (Option ℚ) → Option (Nat × ℚ)
  | [] => none
  | none :: t => (argmin t).map (fun p => (p.1 + 1, p.2))
  | some v :: t =>
    match argmin t with
    | none => some (0, v)
    | some (j, w) => if w < v then some (j + 1, w) else some (0, v)

/-- First index (with its value) attaining the maximum among present
values; model of `Series.idxmax`, ties to the earliest row. -/
def argmax : List (Option ℚ) → Option (Nat × ℚ)
  | [] => none
  | none :: t => (argmax t).map (fun p => (p.1 + 1, p.2))
  | some v :: t =>
    match argmax t with
    | none => some (0, v)
    | some (j, w) => if v < w then some (j + 1, w) else some (0, v)

/-- Output record of one direction of the reduction (src/app.py lines
89-94 and 98-103). -/
structure ExtremeResult where
  value : ℚ
  station : String
  lat : Option ℚ
  lon : Option ℚ
deriving Repr, DecidableEq

/-- Build the result dictionary from the winning row's index and value. -/
def mkResult (rows : List (List String)) (latS lonS : List (Option ℚ)) (p : Nat × ℚ) :
    ExtremeResult :=
  { value := p.2
    station := station_full (rows.getD p.1 [])
    lat := latS.getD p.1 none
    lon := lonS.getD p.1 none }

/-- Model of `parse_and_find_extremes` (src/app.py lines 44-107), dropping
the `df_map` component, which no claim concerns.  The two `ValueError`
raises become `Except.error` with the source's messages; note that the
first guard inspects the original column count while the second inspects
the count after the three derived columns were assigned, exactly as in the
source. -/
def parse_and_find_extremes (header : List String) (rows : List (List String)) :
    Except String (Option ExtremeResult × Option ExtremeResult) :=
  if (strippedHeader header).length < 3 then
    .error "A CSV-ben nincs elég oszlop (minimum 3 szükséges a B és C oszlophoz)."
  else if (augCols header).length ≤ 12 then
    .error "A CSV-ben nincs elég oszlop a K és M oszlopokhoz."
  else
    .ok ((argmin (minValSeries header rows)).map
            (mkResult rows (latSeries header rows) (lonSeries header rows)),
         (argmax (maxValSeries header rows)).map
            (mkResult rows (latSeries header rows) (lonSeries header rows)))

/-- Model of `name.lower().endswith(".csv")` (src/app.py line 39). -/
def endsCsvLower (n : String) : Bool :=
  List.isSuffixOf ".csv".toList (n.toList.map lowerChar)

/-- First archive member whose lowercased name ends in `".csv"`
(src/app.py lines 38-42), or the source's error. -/
def firstCsvMember : List String → Except String String
  | [] => .error "A zip-ben nem található CSV fájl."
  | n :: t => if endsCsvLower n then .ok n else firstCsvMember t

/-- Model of `extract_csv_from_zipbytes` (src/app.py lines 33-42) at the
level of member names: `expected` is the `expected_csv_name` argument
(`none` models Python `None`, and the emptiness test models Python string
truthiness), `names` is `z.namelist()` in archive order, and the result is
the name of the member whose bytes are returned. -/
def extract_csv_from_zipbytes (expected : Option String) (names : List String) :
    Except String String :=
  match expected with
  | some e => if e ≠ "" ∧ e ∈ names then .ok e else firstCsvMember names
  | none => firstCsvMember names

/-- Model of `build_filename_for_date` (src/app.py lines 24-26), with the
date already formatted as `YYYYMMDD`. -/
def build_filename_for_date (ymd : String) : String :=
  "HABP_1D_" ++ ymd ++ ".csv.zip"

/-- Hypotheses under which by-name and positional column access agree and
the temperature columns are original columns: at least 13 columns, the
trimmed header names are distinct, and none of them collides with the
three derived column names. -/
def goodHeader (header : List String) : Prop :=
  13 ≤ (strippedHeader header).length ∧
  (strippedHeader header).Nodup ∧
  "station_number" ∉ strippedHeader header ∧
  "station_name" ∉ strippedHeader header ∧
  "station_full" ∉ strippedHeader header

instance (header : List String) : Decidable (goodHeader header) := by
  unfold goodHeader; infer_instance

/-- Hypothesis that the columns the positional choice designates as
temperature columns are ordinary data columns, not columns the program
itself assigns or reads as coordinates: the trimmed header names at
offsets 10 and 12 are not latitude/longitude spellings (so they are
neither overwritten by the `df["lat"]`/`df["lon"]` assignments nor used
as a coordinate source), and the name at offset 12 is not `"min_val"`
(which line 80 overwrites before line 81 reads it). -/
def plainTempHeaders (header : List String) : Prop :=
  pyLower ((strippedHeader header).getD 10 "") ∉ latTokens ∧
  pyLower ((strippedHeader header).getD 10 "") ∉ lonTokens ∧
  pyLower ((strippedHeader header).getD 12 "") ∉ latTokens ∧
  pyLower ((strippedHeader header).getD 12 "") ∉ lonTokens ∧
  ¬ (strippedHeader header).getD 12 "" = "min_val"

instance (header : List String) : Decidable (plainTempHeaders header) := by
  unfold plainTempHeaders; infer_instance

/-- A concrete 13-column header used by several witnesses. -/
def wHeader : List String :=
  ["h0", "h1", "h2", "h3", "h4", "h5", "h6", "h7", "h8", "h9", "h10", "h11", "h12"]

/-- Concrete single-row table with padded station cells. -/
def wRowsPad : List (List String) :=
  [["x", " 12843 ", " Budapest ", "", "", "", "", "", "", "", "5", "", "9"]]

/-- A 14-column header with a latitude column but no longitude column. -/
def wHeaderLat : List String :=
  ["c0", "c1", "c2", "c3", "c4", "c5", "c6", "c7", "c8", "c9", "c10", "c11", "c12", "lat"]

/-- Row for `wHeaderLat`: the latitude cell parses, but without a
longitude column no coordinate may be attached. -/
def wRowsLat : List (List String) :=
  [["x", "1", "A", "", "", "", "", "", "", "", "5", "", "9", "47.5"]]

theorem isSpaceChar_commaToDot (c : Char) : isSpaceChar (commaToDot c) = isSpaceChar c := by
  by_cases h : c = ','
  · subst h; decide
  · simp [commaToDot, h]

theorem commaToDot_idem (c : Char) : commaToDot (commaToDot c) = commaToDot c := by
  by_cases h : c = ','
  · subst h; decide
  · simp [commaToDot, h]

theorem stripChars_map_commaToDot (cs : List Char) :
    stripChars (cs.map commaToDot) = (stripChars cs).map commaToDot := by
  have hp : (isSpaceChar ∘ commaToDot) = isSpaceChar := funext isSpaceChar_commaToDot
  unfold stripChars
  rw [List.dropWhile_map, hp, ← List.map_reverse, List.dropWhile_map, hp, ← List.map_reverse]

theorem commaToDot_eq_of (c d : Char) (h1 : ¬d = '.') (_h2 : ¬d = ',')
    (h : commaToDot c = d) : c = d := by
  by_cases hc : c = ','
  · subst hc
    simp [commaToDot] at h
    exact absurd h.symm h1
  · simpa [commaToDot, hc] using h

theorem map_commaToDot_eq_of (l m : List Char) (hm : ∀ d ∈ m, ¬d = '.' ∧ ¬d = ',')
    (h : l.map commaToDot = m) : l = m := by
  induction l generalizing m with
  | nil => simpa using h
  | cons a t ih =>
    cases m with
    | nil => simp at h
    | cons d m' =>
      simp only [List.map_cons, List.cons.injEq] at h
      obtain ⟨h1, h2⟩ := h
      obtain ⟨hd1, hd2⟩ := hm d (by simp)
      have ha : a = d := commaToDot_eq_of a d hd1 hd2 h1
      subst ha
      rw [ih m' (fun x hx => hm x (by simp [hx])) h2]

theorem to_floatCore_map_commaToDot (t : List Char) :
    to_floatCore (t.map commaToDot) = to_floatCore t := by
  by_cases h0 : t = []
  · subst h0; rfl
  · by_cases hs : t = sentinelChars
    · subst hs
      have h : sentinelChars.map commaToDot = sentinelChars := by decide
      rw [h]
    · have hm0 : t.map commaToDot ≠ [] := fun hc => h0 (by simpa using hc)
      have hms : t.map commaToDot ≠ sentinelChars := fun hc =>
        hs (map_commaToDot_eq_of t sentinelChars (by decide) hc)
      rw [to_floatCore, to_floatCore, if_neg hm0, if_neg hms, if_neg h0, if_neg hs,
        List.map_map, show commaToDot ∘ commaToDot = commaToDot from funext commaToDot_idem]

/-- Replacing decimal commas before cleansing does not change the cleansed
value: the whole `to_float` pipeline is invariant under `replaceComma`. -/
theorem to_float_replaceComma (s : String) : to_float (replaceComma s) = to_float s := by
  have hl : (String.mk (s.toList.map commaToDot)).toList = s.toList.map commaToDot := rfl
  rw [to_float, replaceComma, hl, stripChars_map_commaToDot, to_floatCore_map_commaToDot,
    to_float]

theorem getD_map_lt {α β : Type} (l : List α) (f : α → β) (i : Nat) (d : α) (d' : β)
    (h : i < l.length) : (l.map f).getD i d' = f (l.getD i d) := by
  rw [List.getD_eq_getElem _ _ (by simpa using h), List.getElem_map,
    List.getD_eq_getElem _ _ h]

theorem getD_some_mem {α : Type} (vs : List (Option α)) (j : Nat) (w : α)
    (h : vs.getD j none = some w) : some w ∈ vs := by
  induction vs generalizing j with
  | nil =>
    rw [List.getD_eq_default _ _ (Nat.zero_le j)] at h
    exact absurd h (by simp)
  | cons x t ih =>
    cases j with
    | zero =>
      rw [List.getD_cons_zero] at h
      rw [h]
      exact List.mem_cons_self _ _
    | succ j' =>
      rw [List.getD_cons_succ] at h
      exact List.mem_cons_of_mem _ (ih j' h)

theorem lt_length_of_getD_some {α : Type} (vs : List (Option α)) (i : Nat) (v : α)
    (h : vs.getD i none = some v) : i < vs.length := by
  by_contra hc
  rw [List.getD_eq_default _ _ (Nat.le_of_not_lt hc)] at h
  exact absurd h (by simp)

/-! ### Specification of the reductions -/

theorem argmin_eq_none_iff (vs : List (Option ℚ)) :
    argmin vs = none ↔ ∀ x ∈ vs, x = none := by
  induction vs with
  | nil => simp [argmin]
  | cons x t ih =>
    cases x with
    | none => simp [argmin, Option.map_eq_none', ih]
    | some v =>
      simp only [argmin]
      cases ht : argmin t with
      | none => simp
      | some p =>
        obtain ⟨j, w⟩ := p
        by_cases hw : w < v <;> simp [hw]

theorem argmin_spec (vs : List (Option ℚ)) (i : Nat) (v : ℚ) (h : argmin vs = some (i, v)) :
    vs.getD i none = some v ∧
    (∀ j w, vs.getD j none = some w → v ≤ w) ∧
    (∀ j, j < i → ∀ w, vs.getD j none = some w → v < w) := by
  induction vs generalizing i v with
  | nil => simp [argmin] at h
  | cons x t ih =>
    cases x with
    | none =>
      simp only [argmin] at h
      rw [Option.map_eq_some'] at h
      obtain ⟨⟨i', v'⟩, hp, heq⟩ := h
      cases heq
      obtain ⟨h1, h2, h3⟩ := ih i' v' hp
      refine ⟨by simpa using h1, ?_, ?_⟩
      · intro j w hj
        cases j with
        | zero => simp at hj
        | succ j' => exact h2 j' w (by simpa using hj)
      · intro j hji w hj
        cases j with
        | zero => simp at hj
        | succ j' => exact h3 j' (by omega) w (by simpa using hj)
    | some v0 =>
      simp only [argmin] at h
      cases ht : argmin t with
      | none =>
        rw [ht] at h
        have h2 : some (0, v0) = some (i, v) := h
        injection h2 with h'
        cases h'
        have hall := (argmin_eq_none_iff t).mp ht
        refine ⟨by simp, ?_, ?_⟩
        · intro j w hj
          cases j with
          | zero =>
            simp at hj
            exact le_of_eq hj
          | succ j' =>
            have hj' : t.getD j' none = some w := by simpa using hj
            exact absurd (hall _ (getD_some_mem t j' w hj')) (by simp)
        · intro j hji w hj
          exact absurd hji (Nat.not_lt_zero j)
      | some p =>
        obtain ⟨j', w'⟩ := p
        rw [ht] at h
        have h2 : (if w' < v0 then some (j' + 1, w') else some (0, v0)) = some (i, v) := h
        obtain ⟨hD, hle, hlt⟩ := ih j' w' ht
        by_cases hw : w' < v0
        · rw [if_pos hw] at h2
          injection h2 with h'
          cases h'
          refine ⟨by simpa using hD, ?_, ?_⟩
          · intro j w hj
            cases j with
            | zero =>
              simp at hj
              exact hj ▸ le_of_lt hw
            | succ k => exact hle k w (by simpa using hj)
          · intro j hji w hj
            cases j with
            | zero =>
              simp at hj
              exact hj ▸ hw
            | succ k => exact hlt k (by omega) w (by simpa using hj)
        · rw [if_neg hw] at h2
          injection h2 with h'
          cases h'
          refine ⟨by simp, ?_, ?_⟩
          · intro j w hj
            cases j with
            | zero =>
              simp at hj
              exact le_of_eq hj
            | succ k => exact le_trans (le_of_not_lt hw) (hle k w (by simpa using hj))
          · intro j hji w hj
            exact absurd hji (Nat.not_lt_zero j)

theorem argmax_eq_none_iff (vs : List (Option ℚ)) :
    argmax vs = none ↔ ∀ x ∈ vs, x = none := by
  induction vs with
  | nil => simp [argmax]
  | cons x t ih =>
    cases x with
    | none => simp [argmax, Option.map_eq_none', ih]
    | some v =>
      simp only [argmax]
      cases ht : argmax t with
      | none => simp
      | some p =>
        obtain ⟨j, w⟩ := p
        by_cases hw : v < w <;> simp [hw]

theorem argmax_spec (vs : List (Option ℚ)) (i : Nat) (v : ℚ) (h : argmax vs = some (i, v)) :
    vs.getD i none = some v ∧
    (∀ j w, vs.getD j none = some w → w ≤ v) ∧
    (∀ j, j < i → ∀ w, vs.getD j none = some w → w < v) := by
  induction vs generalizing i v with
  | nil => simp [argmax] at h
  | cons x t ih =>
    cases x with
    | none =>
      simp only [argmax] at h
      rw [Option.map_eq_some'] at h
      obtain ⟨⟨i', v'⟩, hp, heq⟩ := h
      cases heq
      obtain ⟨h1, h2, h3⟩ := ih i' v' hp
      refine ⟨by simpa using h1, ?_, ?_⟩
      · intro j w hj
        cases j with
        | zero => simp at hj
        | succ j' => exact h2 j' w (by simpa using hj)
      · intro j hji w hj
        cases j with
        | zero => simp at hj
        | succ j' => exact h3 j' (by omega) w (by simpa using hj)
    | some v0 =>
      simp only [argmax] at h
      cases ht : argmax t with
      | none =>
        rw [ht] at h
        have h2 : some (0, v0) = some (i, v) := h
        injection h2 with h'
        cases h'
        have hall := (argmax_eq_none_iff t).mp ht
        refine ⟨by simp, ?_, ?_⟩
        · intro j w hj
          cases j with
          | zero =>
            simp at hj
            exact le_of_eq hj.symm
          | succ j' =>
            have hj' : t.getD j' none = some w := by simpa using hj
            exact absurd (hall _ (getD_some_mem t j' w hj')) (by simp)
        · intro j hji w hj
          exact absurd hji (Nat.not_lt_zero j)
      | some p =>
        obtain ⟨j', w'⟩ := p
        rw [ht] at h
        have h2 : (if v0 < w' then some (j' + 1, w') else some (0, v0)) = some (i, v) := h
        obtain ⟨hD, hle, hlt⟩ := ih j' w' ht
        by_cases hw : v0 < w'
        · rw [if_pos hw] at h2
          injection h2 with h'
          cases h'
          refine ⟨by simpa using hD, ?_, ?_⟩
          · intro j w hj
            cases j with
            | zero =>
              simp at hj
              exact hj ▸ le_of_lt hw
            | succ k => exact hle k w (by simpa using hj)
          · intro j hji w hj
            cases j with
            | zero =>
              simp at hj
              exact hj ▸ hw
            | succ k => exact hlt k (by omega) w (by simpa using hj)
        · rw [if_neg hw] at h2
          injection h2 with h'
          cases h'
          refine ⟨by simp, ?_, ?_⟩
          · intro j w hj
            cases j with
            | zero =>
              simp at hj
              exact le_of_eq hj.symm
            | succ k => exact le_trans (hle k w (by simpa using hj)) (le_of_not_lt hw)
          · intro j hji w hj
            exact absurd hji (Nat.not_lt_zero j)

theorem augCols_eq (header : List String) (hg : goodHeader header) :
    augCols header =
      strippedHeader header ++ ["station_number", "station_name", "station_full"] := by
  obtain ⟨-, -, h1, h2, h3⟩ := hg
  have hn2 : "station_name" ∉ strippedHeader header ++ ["station_number"] := by
    intro hmem
    rcases List.mem_append.mp hmem with hmem | hmem
    · exact h2 hmem
    · exact absurd (List.mem_singleton.mp hmem) (by decide)
  have hn3 : "station_full" ∉ (strippedHeader header ++ ["station_number"]) ++ ["station_name"] := by
    intro hmem
    rcases List.mem_append.mp hmem with hmem | hmem
    · rcases List.mem_append.mp hmem with hmem | hmem
      · exact h3 hmem
      · exact absurd (List.mem_singleton.mp hmem) (by decide)
    · exact absurd (List.mem_singleton.mp hmem) (by decide)
  have e1 : addCol (strippedHeader header) "station_number" =
      strippedHeader header ++ ["station_number"] := by
    rw [addCol, if_neg h1]
  have e2 : addCol (strippedHeader header ++ ["station_number"]) "station_name" =
      (strippedHeader header ++ ["station_number"]) ++ ["station_name"] := by
    rw [addCol, if_neg hn2]
  have e3 : addCol ((strippedHeader header ++ ["station_number"]) ++ ["station_name"])
        "station_full" =
      ((strippedHeader header ++ ["station_number"]) ++ ["station_name"]) ++ ["station_full"] := by
    rw [addCol, if_neg hn3]
  rw [augCols, e1, e2, e3]
  simp

theorem idxOfName_of_nodup (l : List String) (hnd : l.Nodup) (k : Nat) (hk : k < l.length) :
    idxOfName l (l.getD k "") = some k := by
  induction l generalizing k with
  | nil => simp at hk
  | cons c t ih =>
    obtain ⟨hc, hnd'⟩ := List.nodup_cons.mp hnd
    cases k with
    | zero => simp [idxOfName, List.getD_cons_zero]
    | succ k' =>
      have hk' : k' < t.length := by simpa using hk
      have hmem : t.getD k' "" ∈ t := by
        rw [List.getD_eq_getElem _ _ hk']
        exact List.getElem_mem _
      have hne : ¬ c = t.getD k' "" := fun he => hc (he ▸ hmem)
      rw [List.getD_cons_succ, idxOfName, if_neg hne, ih hnd' k' hk']
      rfl

theorem strippedHeader_getD_mem (header : List String) (k : Nat)
    (hk : k < (strippedHeader header).length) :
    (strippedHeader header).getD k "" ∈ strippedHeader header := by
  rw [List.getD_eq_getElem _ _ hk]
  exact List.getElem_mem _

theorem min_col_eq (header : List String) (hg : goodHeader header) :
    min_col header = (strippedHeader header).getD 10 "" := by
  have h10 : 10 < (strippedHeader header).length := lt_of_lt_of_le (by norm_num) hg.1
  rw [min_col, augCols_eq header hg, List.getD_append _ _ _ _ h10]

theorem max_col_eq (header : List String) (hg : goodHeader header) :
    max_col header = (strippedHeader header).getD 12 "" := by
  have h12 : 12 < (strippedHeader header).length := lt_of_lt_of_le (by norm_num) hg.1
  rw [max_col, augCols_eq header hg, List.getD_append _ _ _ _ h12]

theorem seriesByName_min_col (header : List String) (rows : List (List String))
    (hg : goodHeader header) :
    seriesByName header rows (min_col header) = rows.map (fun r => cell r 10) := by
  have h10 : 10 < (strippedHeader header).length := lt_of_lt_of_le (by norm_num) hg.1
  have hmem := strippedHeader_getD_mem header 10 h10
  have hne1 : ¬ (strippedHeader header).getD 10 "" = "station_number" :=
    fun he => hg.2.2.1 (he ▸ hmem)
  have hne2 : ¬ (strippedHeader header).getD 10 "" = "station_name" :=
    fun he => hg.2.2.2.1 (he ▸ hmem)
  have hne3 : ¬ (strippedHeader header).getD 10 "" = "station_full" :=
    fun he => hg.2.2.2.2 (he ▸ hmem)
  rw [min_col_eq header hg, seriesByName, if_neg hne1, if_neg hne2, if_neg hne3,
    idxOfName_of_nodup _ hg.2.1 10 h10]

theorem seriesByName_max_col (header : List String) (rows : List (List String))
    (hg : goodHeader header) :
    seriesByName header rows (max_col header) = rows.map (fun r => cell r 12) := by
  have h12 : 12 < (strippedHeader header).length := lt_of_lt_of_le (by norm_num) hg.1
  have hmem := strippedHeader_getD_mem header 12 h12
  have hne1 : ¬ (strippedHeader header).getD 12 "" = "station_number" :=
    fun he => hg.2.2.1 (he ▸ hmem)
  have hne2 : ¬ (strippedHeader header).getD 12 "" = "station_name" :=
    fun he => hg.2.2.2.1 (he ▸ hmem)
  have hne3 : ¬ (strippedHeader header).getD 12 "" = "station_full" :=
    fun he => hg.2.2.2.2 (he ▸ hmem)
  rw [max_col_eq header hg, seriesByName, if_neg hne1, if_neg hne2, if_neg hne3,
    idxOfName_of_nodup _ hg.2.1 12 h12]

/-- Under `plainTempHeaders` the minimum column is not one of the
internally assigned `lat`/`lon` columns, so line 80 reads the raw column
at offset 10 and cleanses it with `to_float`. -/
theorem minValSeries_plain (header : List String) (rows : List (List String))
    (hg : goodHeader header) (hp : plainTempHeaders header) :
    minValSeries header rows = rows.map (fun r => to_float (cell r 10)) := by
  have hlat : ¬ min_col header = "lat" := by
    rw [min_col_eq header hg]
    intro he
    exact hp.1 (by rw [he]; decide)
  have hlon : ¬ min_col header = "lon" := by
    rw [min_col_eq header hg]
    intro he
    exact hp.2.1 (by rw [he]; decide)
  rw [minValSeries, if_neg hlat, if_neg hlon, seriesByName_min_col header rows hg,
    List.map_map]
  rfl

/-- Under `plainTempHeaders` the maximum column is neither `min_val` nor
a coordinate column, so line 81 reads the raw column at offset 12 and
cleanses it with `to_float`. -/
theorem maxValSeries_plain (header : List String) (rows : List (List String))
    (hg : goodHeader header) (hp : plainTempHeaders header) :
    maxValSeries header rows = rows.map (fun r => to_float (cell r 12)) := by
  have hmv : ¬ max_col header = "min_val" := by
    rw [max_col_eq header hg]
    exact hp.2.2.2.2
  have hlat : ¬ max_col header = "lat" := by
    rw [max_col_eq header hg]
    intro he
    exact hp.2.2.1 (by rw [he]; decide)
  have hlon : ¬ max_col header = "lon" := by
    rw [max_col_eq header hg]
    intro he
    exact hp.2.2.2.1 (by rw [he]; decide)
  rw [maxValSeries, if_neg hmv, if_neg hlat, if_neg hlon, seriesByName_max_col header rows hg,
    List.map_map]
  rfl

theorem mem_of_mem_addCol (cols : List String) (n x : String) (hx : x ∈ addCol cols n) :
    x ∈ cols ∨ x = n := by
  rw [addCol] at hx
  split at hx
  · exact Or.inl hx
  · rcases List.mem_append.mp hx with h | h
    · exact Or.inl h
    · exact Or.inr (List.mem_singleton.mp h)

theorem mem_augCols_cases (header : List String) (x : String) (hx : x ∈ augCols header) :
    x ∈ strippedHeader header ∨ x = "station_number" ∨ x = "station_name" ∨
      x = "station_full" := by
  rcases mem_of_mem_addCol _ _ _ hx with hx | hx
  · rcases mem_of_mem_addCol _ _ _ hx with hx | hx
    · rcases mem_of_mem_addCol _ _ _ hx with hx | hx
      · exact Or.inl hx
      · exact Or.inr (Or.inl hx)
    · exact Or.inr (Or.inr (Or.inl hx))
  · exact Or.inr (Or.inr (Or.inr hx))

theorem idxOfName_isSome_of_mem (l : List String) (c : String) (hc : c ∈ l) :
    ∃ k, idxOfName l c = some k := by
  induction l with
  | nil => simp at hc
  | cons d t ih =>
    by_cases hd : d = c
    · exact ⟨0, by rw [idxOfName, if_pos hd]⟩
    · have hct : c ∈ t := by
        rcases List.mem_cons.mp hc with h | h
        · exact absurd h.symm hd
        · exact h
      obtain ⟨k, hk⟩ := ih hct
      exact ⟨k + 1, by rw [idxOfName, if_neg hd, hk]; rfl⟩

theorem seriesByName_length_of_mem (header : List String) (rows : List (List String))
    (c : String) (hc : c ∈ augCols header) :
    (seriesByName header rows c).length = rows.length := by
  by_cases h1 : c = "station_number"
  · rw [seriesByName, if_pos h1, List.length_map]
  by_cases h2 : c = "station_name"
  · rw [seriesByName, if_neg h1, if_pos h2, List.length_map]
  by_cases h3 : c = "station_full"
  · rw [seriesByName, if_neg h1, if_neg h2, if_pos h3, List.length_map]
  have hmem : c ∈ strippedHeader header := by
    rcases mem_augCols_cases header c hc with h | h | h | h
    · exact h
    · exact absurd h h1
    · exact absurd h h2
    · exact absurd h h3
  obtain ⟨k, hk⟩ := idxOfName_isSome_of_mem _ _ hmem
  rw [seriesByName, if_neg h1, if_neg h2, if_neg h3, hk]
  show (rows.map (fun r => cell r k)).length = rows.length
  rw [List.length_map]

theorem latSeries_length (header : List String) (rows : List (List String)) :
    (latSeries header rows).length = rows.length := by
  rw [latSeries]
  cases hl : lat_candidates header with
  | nil =>
    show (rows.map (fun _ => (none : Option ℚ))).length = rows.length
    rw [List.length_map]
  | cons c cs =>
    cases hlon : lon_candidates header with
    | nil =>
      show (rows.map (fun _ => (none : Option ℚ))).length = rows.length
      rw [List.length_map]
    | cons d ds =>
      show ((seriesByName header rows c).map coordParse).length = rows.length
      have hc : c ∈ augCols header := by
        have hmem : c ∈ lat_candidates header := by
          rw [hl]
          exact List.mem_cons_self _ _
        exact (List.mem_filter.mp hmem).1
      rw [List.length_map, seriesByName_length_of_mem header rows c hc]

theorem lonSeries_length (header : List String) (rows : List (List String)) :
    (lonSeries header rows).length = rows.length := by
  rw [lonSeries]
  cases hl : lat_candidates header with
  | nil =>
    show (rows.map (fun _ => (none : Option ℚ))).length = rows.length
    rw [List.length_map]
  | cons c cs =>
    cases hlon : lon_candidates header with
    | nil =>
      show (rows.map (fun _ => (none : Option ℚ))).length = rows.length
      rw [List.length_map]
    | cons d ds =>
      show ((seriesByName header rows d).map coordParse).length = rows.length
      have hd : d ∈ augCols header := by
        have hmem : d ∈ lon_candidates header := by
          rw [hlon]
          exact List.mem_cons_self _ _
        exact (List.mem_filter.mp hmem).1
      rw [List.length_map, seriesByName_length_of_mem header rows d hd]

theorem min_col_mem_augCols (header : List String) (hg : goodHeader header) :
    min_col header ∈ augCols header := by
  have hlen : 10 < (augCols header).length := by
    have := hg.1
    rw [augCols_eq header hg, List.length_append]
    simp
    omega
  rw [min_col, List.getD_eq_getElem _ _ hlen]
  exact List.getElem_mem _

theorem max_col_mem_augCols (header : List String) (hg : goodHeader header) :
    max_col header ∈ augCols header := by
  have hlen : 12 < (augCols header).length := by
    have := hg.1
    rw [augCols_eq header hg, List.length_append]
    simp
    omega
  rw [max_col, List.getD_eq_getElem _ _ hlen]
  exact List.getElem_mem _

theorem minValSeries_length (header : List String) (rows : List (List String))
    (hg : goodHeader header) :
    (minValSeries header rows).length = rows.length := by
  rw [minValSeries]
  split
  · exact latSeries_length header rows
  · split
    · exact lonSeries_length header rows
    · rw [List.length_map,
        seriesByName_length_of_mem header rows _ (min_col_mem_augCols header hg)]

theorem maxValSeries_length (header : List String) (rows : List (List String))
    (hg : goodHeader header) :
    (maxValSeries header rows).length = rows.length := by
  rw [maxValSeries]
  split
  · exact minValSeries_length header rows hg
  · split
    · exact latSeries_length header rows
    · split
      · exact lonSeries_length header rows
      · rw [List.length_map,
          seriesByName_length_of_mem header rows _ (max_col_mem_augCols header hg)]

theorem parse_eq (header : List String) (rows : List (List String))
    (hg : goodHeader header) :
    parse_and_find_extremes header rows =
      .ok ((argmin (minValSeries header rows)).map
              (mkResult rows (latSeries header rows) (lonSeries header rows)),
           (argmax (maxValSeries header rows)).map
              (mkResult rows (latSeries header rows) (lonSeries header rows))) := by
  have hg3 : ¬ (strippedHeader header).length < 3 := by
    have := hg.1
    omega
  have haug : ¬ (augCols header).length ≤ 12 := by
    rw [augCols_eq header hg]
    have := hg.1
    simp [List.length_append]
    omega
  rw [parse_and_find_extremes, if_neg hg3, if_neg haug]

/-! ### Stability of the pipeline under blanking of sentinel cells -/

theorem latSeries_unresolved (header : List String) (rows : List (List String))
    (h : lat_candidates header = [] ∨ lon_candidates header = []) :
    latSeries header rows = rows.map (fun _ => none) := by
  rcases h with h | h
  · rw [latSeries, h]
  · cases hl : lat_candidates header with
    | nil => rw [latSeries, hl]
    | cons c cs => rw [latSeries, hl, h]

theorem lonSeries_unresolved (header : List String) (rows : List (List String))
    (h : lat_candidates header = [] ∨ lon_candidates header = []) :
    lonSeries header rows = rows.map (fun _ => none) := by
  rcases h with h | h
  · rw [lonSeries, h]
  · cases hl : lat_candidates header with
    | nil => rw [lonSeries, hl]
    | cons c cs => rw [lonSeries, hl, h]

theorem getD_map_const_none (rows : List (List String)) (i : Nat) :
    (rows.map (fun _ => (none : Option ℚ))).getD i none = none := by
  by_cases h : i < rows.length
  · rw [getD_map_lt rows _ i [] none h]
  · rw [List.getD_eq_default]
    simpa using Nat.le_of_not_lt h

/-- Characterisation of a present minimum result: all its fields come from
the winning row, whose entry of the reduced minimum series is least among
all present entries, strictly so among earlier rows. -/
theorem ok_min_some (header : List String) (rows : List (List String))
    (hg : goodHeader header) (mn mx : Option ExtremeResult)
    (h : parse_and_find_extremes header rows = .ok (mn, mx)) (r : ExtremeResult)
    (hr : mn = some r) :
    ∃ i, i < rows.length ∧
      (minValSeries header rows).getD i none = some r.value ∧
      r.station = station_full (rows.getD i []) ∧
      r.lat = (latSeries header rows).getD i none ∧
      r.lon = (lonSeries header rows).getD i none ∧
      (∀ j w, (minValSeries header rows).getD j none = some w → r.value ≤ w) ∧
      (∀ j, j < i → ∀ w, (minValSeries header rows).getD j none = some w → r.value < w) := by
  rw [parse_eq header rows hg] at h
  injection h with h'
  rw [Prod.mk.injEq] at h'
  obtain ⟨h1, -⟩ := h'
  rw [← h1, Option.map_eq_some'] at hr
  obtain ⟨⟨i, v⟩, ham, hr'⟩ := hr
  obtain ⟨hD, hle, hlt⟩ := argmin_spec _ i v ham
  have hilen : i < rows.length := by
    have hi := lt_length_of_getD_some _ i v hD
    rwa [minValSeries_length header rows hg] at hi
  subst hr'
  exact ⟨i, hilen, hD, rfl, rfl, rfl, hle, hlt⟩

/-- Characterisation of a present maximum result, dual to `ok_min_some`. -/
theorem ok_max_some (header : List String) (rows : List (List String))
    (hg : goodHeader header) (mn mx : Option ExtremeResult)
    (h : parse_and_find_extremes header rows = .ok (mn, mx)) (r : ExtremeResult)
    (hr : mx = some r) :
    ∃ i, i < rows.length ∧
      (maxValSeries header rows).getD i none = some r.value ∧
      r.station = station_full (rows.getD i []) ∧
      r.lat = (latSeries header rows).getD i none ∧
      r.lon = (lonSeries header rows).getD i none ∧
      (∀ j w, (maxValSeries header rows).getD j none = some w → w ≤ r.value) ∧
      (∀ j, j < i → ∀ w, (maxValSeries header rows).getD j none = some w → w < r.value) := by
  rw [parse_eq header rows hg] at h
  injection h with h'
  rw [Prod.mk.injEq] at h'
  obtain ⟨-, h2⟩ := h'
  rw [← h2, Option.map_eq_some'] at hr
  obtain ⟨⟨i, v⟩, ham, hr'⟩ := hr
  obtain ⟨hD, hle, hlt⟩ := argmax_spec _ i v ham
  have hilen : i < rows.length := by
    have hi := lt_length_of_getD_some _ i v hD
    rwa [maxValSeries_length header rows hg] at hi
  subst hr'
  exact ⟨i, hilen, hD, rfl, rfl, rfl, hle, hlt⟩

/-! ### Archive member selection -/

theorem firstCsvMember_ok_iff_find (names : List String) (m : String) :
    firstCsvMember names = .ok m ↔
      names.find? (fun n => endsCsvLower n) = some m := by
  induction names with
  | nil => simp [firstCsvMember]
  | cons n t ih =>
    by_cases h : endsCsvLower n
    · rw [firstCsvMember, if_pos h, List.find?_cons_of_pos _ h]
      constructor
      · intro he
        injection he with he'
        rw [he']
      · intro he
        injection he with he'
        rw [he']
    · rw [firstCsvMember, if_neg h, List.find?_cons_of_neg _ (by simpa using h), ih]

theorem firstCsvMember_error_of_none (names : List String)
    (h : names.find? (fun n => endsCsvLower n) = none) :
    firstCsvMember names = .error "A zip-ben nem található CSV fájl." := by
  induction names with
  | nil => rfl
  | cons n t ih =>
    rw [List.find?_cons] at h
    cases hn : endsCsvLower n with
    | true => rw [hn] at h; simp at h
    | false =>
      rw [hn] at h
      rw [firstCsvMember, if_neg (by simp [hn]), ih h]

/-! ### The claims -/

/-- Claim C3 (counterexample): a header containing the recognised
minimum-temperature token `tn` (here at offset 3, whose cell cleanses to
5) is ignored — the minimum is taken from the column at positional offset
10 (value 7).  No name-based search precedes the positional choice, so
resolution is not "tokens first, positional fallback". -/
theorem token_header_ignored_cex :
    parse_and_find_extremes ["a", "b", "c", "tn", "e", "f", "g", "h", "i", "j", "k", "l", "m"]
      [["x", "42", "Pest", "5", "", "", "", "", "", "", "7", "", "9"]] =
      .ok (some ⟨7, "Pest (42)", none, none⟩, some ⟨9, "Pest (42)", none, none⟩) ∧
    to_float "5" = some 5 ∧ ¬ (7 : ℚ) = 5 :=
  ⟨by rfl, by decide, by norm_num⟩

/-- Claim C3 (amended): temperature-column resolution is purely
positional — the minimum column is the column at offset 10 and the
maximum the column at offset 12 of the stripped header, whatever tokens
appear among the header names; no name-based search takes place.  When
those positional columns are ordinary data columns (not named `lat`,
`lon` or `min_val`), the reduced series are exactly their cells cleansed
by `to_float`. -/
theorem temperature_columns_positional (header : List String) (rows : List (List String))
    (hg : goodHeader header) :
    min_col header = (strippedHeader header).getD 10 "" ∧
    max_col header = (strippedHeader header).getD 12 "" ∧
    (plainTempHeaders header →
      minValSeries header rows = rows.map (fun r => to_float (cell r 10)) ∧
      maxValSeries header rows = rows.map (fun r => to_float (cell r 12))) :=
  ⟨min_col_eq header hg, max_col_eq header hg,
    fun hp => ⟨minValSeries_plain header rows hg hp, maxValSeries_plain header rows hg hp⟩⟩

/-- Witness for the amended claim C3 at a header that contains the token
`tn` — resolution is positional even then. -/
theorem temperature_columns_positional_witness :
    min_col ["a", "b", "c", "tn", "e", "f", "g", "h", "i", "j", "k", "l", "m"] =
      (strippedHeader ["a", "b", "c", "tn", "e", "f", "g", "h", "i", "j", "k", "l", "m"]).getD
        10 "" ∧
    max_col ["a", "b", "c", "tn", "e", "f", "g", "h", "i", "j", "k", "l", "m"] =
      (strippedHeader ["a", "b", "c", "tn", "e", "f", "g", "h", "i", "j", "k", "l", "m"]).getD
        12 "" ∧
    (plainTempHeaders ["a", "b", "c", "tn", "e", "f", "g", "h", "i", "j", "k", "l", "m"] →
      minValSeries ["a", "b", "c", "tn", "e", "f", "g", "h", "i", "j", "k", "l", "m"]
          [["x", "42", "Pest", "5", "", "", "", "", "", "", "7", "", "9"]] =
        [["x", "42", "Pest", "5", "", "", "", "", "", "", "7", "", "9"]].map
          (fun r => to_float (cell r 10)) ∧
      maxValSeries ["a", "b", "c", "tn", "e", "f", "g", "h", "i", "j", "k", "l", "m"]
          [["x", "42", "Pest", "5", "", "", "", "", "", "", "7", "", "9"]] =
        [["x", "42", "Pest", "5", "", "", "", "", "", "", "7", "", "9"]].map
          (fun r => to_float (cell r 12))) :=
  temperature_columns_positional _ _ (by decide)

/-- Claim C4 (code bug): the source checks `len(df.columns) <= 12` only
after the three derived columns were assigned, so a 12-column table is
not rejected; its "maximum" column resolves to the derived
`station_number` column, and the reduction returns the numerically
largest station number as a temperature.  The claim — and the code's own
comment and error message, which promise a check for the CSV's K and M
columns — require a schema error for any table with fewer than 13
columns. -/
theorem column_check_gap :
    parse_and_find_extremes
      ["c0", "c1", "c2", "c3", "c4", "c5", "c6", "c7", "c8", "c9", "c10", "c11"]
      [["r", "11111", "A", "", "", "", "", "", "", "", "3", ""],
       ["r", "99999", "B", "", "", "", "", "", "", "", "7", ""]] =
      .ok (some ⟨3, "A (11111)", none, none⟩, some ⟨99999, "B (99999)", none, none⟩) := by
  rfl

/-- Claim C5 (counterexample): no header of this table contains a
station-number marker, yet the station label still carries the value of
column offset 1 in parentheses — the label is never the bare station
name. -/
theorem station_label_number_cex :
    parse_and_find_extremes
      ["c0", "c1", "c2", "c3", "c4", "c5", "c6", "c7", "c8", "c9", "c10", "c11", "c12"]
      [["x", "12843", "Budapest", "", "", "", "", "", "", "", "5", "", "9"]] =
      .ok (some ⟨5, "Budapest (12843)", none, none⟩,
           some ⟨9, "Budapest (12843)", none, none⟩) ∧
    ¬ ("Budapest (12843)" : String) = "Budapest" :=
  ⟨by rfl, by decide⟩

/-- Claim C5 (amended): the station label of every returned extreme always
equals `"<stationName> (<stationNumber>)"` with both parts trimmed, the
name taken from column offset 2 and the number from column offset 1;
there is no station-number column resolution and the number is never
omitted. -/
theorem station_label_always_number (header : List String) (rows : List (List String))
    (hg : goodHeader header) :
    ∀ mn mx, parse_and_find_extremes header rows = .ok (mn, mx) →
      ∀ r, mn = some r ∨ mx = some r →
        ∃ i, i < rows.length ∧
          r.station =
            pyStrip (cell (rows.getD i []) 2) ++ " (" ++ pyStrip (cell (rows.getD i []) 1) ++ ")" := by
  intro mn mx h r hr
  rcases hr with hr | hr
  · obtain ⟨i, hi, -, hst, -, -, -, -⟩ := ok_min_some header rows hg mn mx h r hr
    refine ⟨i, hi, ?_⟩
    rw [hst, station_full, station_name, station_number]
  · obtain ⟨i, hi, -, hst, -, -, -, -⟩ := ok_max_some header rows hg mn mx h r hr
    refine ⟨i, hi, ?_⟩
    rw [hst, station_full, station_name, station_number]

/-- Witness for the amended claim C5 at a table with padded station
cells, which come back trimmed inside the label. -/
theorem station_label_always_number_witness :
    ∃ i, i < wRowsPad.length ∧
      ("Budapest (12843)" : String) =
        pyStrip (cell (wRowsPad.getD i []) 2) ++ " (" ++
          pyStrip (cell (wRowsPad.getD i []) 1) ++ ")" :=
  station_label_always_number wHeader wRowsPad (by decide)
    (some ⟨5, "Budapest (12843)", none, none⟩) (some ⟨9, "Budapest (12843)", none, none⟩)
    (by rfl) ⟨5, "Budapest (12843)", none, none⟩ (Or.inl rfl)

/-- Claim C7 (counterexample): both coordinate columns are resolved, the
winning row's latitude cell parses but its longitude cell does not — and
the returned results carry the latitude while the longitude is absent, so
a result can carry one coordinate without the other. -/
theorem partial_coordinates_cex :
    parse_and_find_extremes
      ["c0", "c1", "c2", "c3", "c4", "c5", "c6", "c7", "c8", "c9", "c10", "c11", "c12",
        "lat", "lon"]
      [["x", "12843", "Budapest", "", "", "", "", "", "", "", "5", "", "9", "47.5", "junk"]] =
      .ok (some ⟨5, "Budapest (12843)", some ((47 : ℚ) + (5 : ℚ) / (10 : ℚ) ^ (1 : ℕ)), none⟩,
           some ⟨9, "Budapest (12843)", some ((47 : ℚ) + (5 : ℚ) / (10 : ℚ) ^ (1 : ℕ)), none⟩) ∧
    ((47 : ℚ) + (5 : ℚ) / (10 : ℚ) ^ (1 : ℕ)) = 95 / 2 ∧
    ¬ (some ((47 : ℚ) + (5 : ℚ) / (10 : ℚ) ^ (1 : ℕ)) : Option ℚ) = none :=
  ⟨by rfl, by norm_num, by simp⟩

/-- Claim C7 (amended): the coordinates of a returned extreme are the
winning row's independently parsed latitude and longitude — when either
coordinate column is unresolved both are absent, but when both columns
are resolved each cell is parsed on its own, so one coordinate can be
present while the other is absent. -/
theorem coordinates_per_row (header : List String) (rows : List (List String))
    (hg : goodHeader header) :
    ∀ mn mx, parse_and_find_extremes header rows = .ok (mn, mx) →
      ∀ r, mn = some r ∨ mx = some r →
        ((lat_candidates header = [] ∨ lon_candidates header = []) →
          r.lat = none ∧ r.lon = none) ∧
        ∃ i, i < rows.length ∧
          r.lat = (latSeries header rows).getD i none ∧
          r.lon = (lonSeries header rows).getD i none := by
  intro mn mx h r hr
  have hex : ∃ i, i < rows.length ∧
      r.lat = (latSeries header rows).getD i none ∧
      r.lon = (lonSeries header rows).getD i none := by
    rcases hr with hr | hr
    · obtain ⟨i, hi, -, -, hlat, hlon, -, -⟩ := ok_min_some header rows hg mn mx h r hr
      exact ⟨i, hi, hlat, hlon⟩
    · obtain ⟨i, hi, -, -, hlat, hlon, -, -⟩ := ok_max_some header rows hg mn mx h r hr
      exact ⟨i, hi, hlat, hlon⟩
  refine ⟨?_, hex⟩
  intro hun
  obtain ⟨i, hi, hlat, hlon⟩ := hex
  constructor
  · rw [hlat, latSeries_unresolved header rows hun, getD_map_const_none]
  · rw [hlon, lonSeries_unresolved header rows hun, getD_map_const_none]

/-- Witness for the amended claim C7 at a table with a latitude column but
no longitude column: both coordinates of the returned minimum are absent. -/
theorem coordinates_per_row_witness :
    ((lat_candidates wHeaderLat = [] ∨ lon_candidates wHeaderLat = []) →
      (⟨5, "A (1)", none, none⟩ : ExtremeResult).lat = none ∧
      (⟨5, "A (1)", none, none⟩ : ExtremeResult).lon = none) ∧
    ∃ i, i < wRowsLat.length ∧
      (⟨5, "A (1)", none, none⟩ : ExtremeResult).lat =
        (latSeries wHeaderLat wRowsLat).getD i none ∧
      (⟨5, "A (1)", none, none⟩ : ExtremeResult).lon =
        (lonSeries wHeaderLat wRowsLat).getD i none :=
  coordinates_per_row wHeaderLat wRowsLat (by decide)
    (some ⟨5, "A (1)", none, none⟩) (some ⟨9, "A (1)", none, none⟩) (by rfl)
    ⟨5, "A (1)", none, none⟩ (Or.inl rfl)

/-- Claim C8: with an expected member name ending in the text-table
extension, extraction returns exactly that member when present; otherwise
it returns the first member in archive order with the extension, and it
fails with the malformed-archive error exactly when no member has the
extension. -/
theorem extract_member_selection (e : String) (names : List String)
    (he : ¬ e = "") (hcsv : endsCsvLower e = true) :
    (e ∈ names → extract_csv_from_zipbytes (some e) names = .ok e) ∧
    ((∃ m, extract_csv_from_zipbytes (some e) names = .ok m) ↔
      ∃ n ∈ names, endsCsvLower n = true) ∧
    (e ∉ names → ∀ m, extract_csv_from_zipbytes (some e) names = .ok m →
      names.find? (fun n => endsCsvLower n) = some m) ∧
    (¬ (∃ n ∈ names, endsCsvLower n = true) →
      extract_csv_from_zipbytes (some e) names =
        .error "A zip-ben nem található CSV fájl.") := by
  refine ⟨?_, ?_, ?_, ?_⟩
  · intro hm
    rw [extract_csv_from_zipbytes, if_pos ⟨he, hm⟩]
  · constructor
    · rintro ⟨m, hm⟩
      by_cases hin : e ∈ names
      · exact ⟨e, hin, hcsv⟩
      · rw [extract_csv_from_zipbytes, if_neg (fun hc => hin hc.2)] at hm
        rw [firstCsvMember_ok_iff_find] at hm
        exact ⟨m, List.mem_of_find?_eq_some hm, List.find?_some hm⟩
    · rintro ⟨n, hn, hpn⟩
      by_cases hin : e ∈ names
      · exact ⟨e, by rw [extract_csv_from_zipbytes, if_pos ⟨he, hin⟩]⟩
      · cases hf : names.find? (fun x => endsCsvLower x) with
        | none =>
          rw [List.find?_eq_none] at hf
          exact absurd hpn (by simpa using hf n hn)
        | some m =>
          refine ⟨m, ?_⟩
          rw [extract_csv_from_zipbytes, if_neg (fun hc => hin hc.2),
            firstCsvMember_ok_iff_find]
          exact hf
  · intro hnin m hm
    rw [extract_csv_from_zipbytes, if_neg (fun hc => hnin hc.2),
      firstCsvMember_ok_iff_find] at hm
    exact hm
  · intro hno
    by_cases hin : e ∈ names
    · exact absurd ⟨e, hin, hcsv⟩ hno
    · rw [extract_csv_from_zipbytes, if_neg (fun hc => hin hc.2)]
      refine firstCsvMember_error_of_none names ?_
      rw [List.find?_eq_none]
      intro x hx
      simp only [Bool.not_eq_true]
      by_contra hc
      exact hno ⟨x, hx, by simpa using hc⟩

/-- Witness for claim C8: the archive base name is present among the
members and is selected; the error case is exercised by the other
conjuncts' hypotheses at this input being decidable facts. -/
theorem extract_member_selection_witness :
    ("HABP_1D_20240305.csv" ∈ ["readme.txt", "HABP_1D_20240305.csv", "x.CSV"] →
      extract_csv_from_zipbytes (some "HABP_1D_20240305.csv")
        ["readme.txt", "HABP_1D_20240305.csv", "x.CSV"] = .ok "HABP_1D_20240305.csv") ∧
    ((∃ m, extract_csv_from_zipbytes (some "HABP_1D_20240305.csv")
        ["readme.txt", "HABP_1D_20240305.csv", "x.CSV"] = .ok m) ↔
      ∃ n ∈ ["readme.txt", "HABP_1D_20240305.csv", "x.CSV"], endsCsvLower n = true) ∧
    ("HABP_1D_20240305.csv" ∉ ["readme.txt", "HABP_1D_20240305.csv", "x.CSV"] →
      ∀ m, extract_csv_from_zipbytes (some "HABP_1D_20240305.csv")
          ["readme.txt", "HABP_1D_20240305.csv", "x.CSV"] = .ok m →
        ["readme.txt", "HABP_1D_20240305.csv", "x.CSV"].find?
          (fun n => endsCsvLower n) = some m) ∧
    (¬ (∃ n ∈ ["readme.txt", "HABP_1D_20240305.csv", "x.CSV"], endsCsvLower n = true) →
      extract_csv_from_zipbytes (some "HABP_1D_20240305.csv")
        ["readme.txt", "HABP_1D_20240305.csv", "x.CSV"] =
        .error "A zip-ben nem található CSV fájl.") :=
  extract_member_selection _ _ (by decide) (by decide)

/-- Claim C9: the cleansing pipeline is invariant under replacing decimal
commas by decimal points, and in particular `"12,5"` cleanses to exactly
the value of `"12.5"`, namely 25/2. -/
theorem decimal_comma_point_equiv :
    (∀ s, to_float (replaceComma s) = to_float s) ∧
    to_float "12,5" = to_float "12.5" ∧
    to_float "12,5" = some ((25 : ℚ) / 2) := by
  refine ⟨to_float_replaceComma, by rfl, ?_⟩
  have h : to_float "12,5" = some ((12 : ℚ) + (5 : ℚ) / (10 : ℚ) ^ (1 : ℕ)) := by rfl
  rw [h]
  norm_num

end Homerseklet
